import Mathlib

/-
Verification of the `secrets` crate's `SecretVec` module (src/secret_vec.rs).

The module is a thin layer over a protected-memory region type (`Box` in the
crate, here `BoxS`) and capability traits; those collaborators are not part of
the sources under verification, so their behaviour is modelled from the spec
(sections 3 and 4.1–4.2), while `SecretVec`, `Ref` and `RefMut` are translated
directly from src/secret_vec.rs.

Modelling conventions:
- machine state is passed explicitly; the region's interior-mutable borrow
  counters become fields of `BoxS`;
- fatal contract violations (process aborts) are represented as `none`;
- a guard (`Ref` / `RefMut`) dereferences to the region's data; in the
  state-passing model the guard carries its dereferenced view and the
  post-transition container state is returned alongside it.
-/

namespace Secrets

/-- Protection state of a region's data pages (spec §3: no-access /
read-only / read-write). -/
inductive Prot where
  | noAccess
  | readOnly
  | readWrite
deriving DecidableEq, Repr

/-- Modelled from the spec: the Protected Region (`Box<T>` in the crate, not
part of the verified sources). It owns the element sequence and tracks the
outstanding shared-borrow count, the exclusive-borrow flag and the current
protection state (spec §3 "Protected Region"). Guard pages, canary and
memory-locking are OS-level and not represented. -/
structure BoxS (T : Type) where
  data : List T
  refs : Nat
  excl : Bool
  prot : Prot
deriving DecidableEq, Repr

variable {T : Type}

/-- Modelled from the spec: UnlockShared (§4.1). If an exclusive borrow is
held this is a caller contract violation (abort, modelled `none`); otherwise
the shared count is incremented and, on the 0 → 1 transition, protection is
set to read-only. -/
def BoxS.unlock (b : BoxS T) : Option (BoxS T) :=
  if b.excl then none
  else some { b with refs := b.refs + 1,
                     prot := if b.refs = 0 then Prot.readOnly else b.prot }

/-- Modelled from the spec: UnlockExclusive (§4.1). Requires shared count = 0
and no exclusive borrow held, else abort; sets protection to read-write. -/
def BoxS.unlock_mut (b : BoxS T) : Option (BoxS T) :=
  if b.refs = 0 ∧ b.excl = false then
    some { b with excl := true, prot := Prot.readWrite }
  else none

/-- Modelled from the spec: the single `lock` entry point called by both
guards' destructors, dispatching to LockExclusive (clear the flag, set
no-access) when an exclusive borrow is held and to LockShared (decrement the
count; on reaching 0 set no-access) otherwise (§4.1). Releasing with no
outstanding borrow is a contract violation (`none`). -/
def BoxS.lock (b : BoxS T) : Option (BoxS T) :=
  if b.excl then some { b with excl := false, prot := Prot.noAccess }
  else
    match b.refs with
    | 0 => none
    | r + 1 => some { b with refs := r,
                             prot := if r = 0 then Prot.noAccess else b.prot }

/-- Modelled from the spec: Allocate (§4.1) — a fresh region of `len`
elements in the no-access state with no outstanding borrows. The data
contents before initialization are unspecified; they are modelled as the
default element. -/
def BoxS.alloc (T : Type) [Inhabited T] (len : Nat) : BoxS T :=
  { data := List.replicate len default, refs := 0, excl := false,
    prot := Prot.noAccess }

/-- Modelled from the spec: region construction behind `New` (§4.2) —
allocate `len` elements, immediately acquire an exclusive view, run the
caller-supplied initializer against it, then release the view. -/
def BoxS.new [Inhabited T] (len : Nat) (f : List T → List T) :
    Option (BoxS T) := do
  let bu ← (BoxS.alloc T len).unlock_mut
  let bw := { bu with data := f bu.data }
  bw.lock

/-- Element count of the region (spec §3: attribute `n`). -/
def BoxS.len (b : BoxS T) : Nat := b.data.length

/-- Emptiness query, delegated to by `SecretVec::is_empty`. -/
def BoxS.is_empty (b : BoxS T) : Bool := b.len == 0

/-- Modelled from the spec: ConstantComparable comparison (the `constant_eq`
trait method, not part of the verified sources). Every aligned pair of
elements is visited with no early exit on mismatch; behaviourally it decides
equality of the two sequences (§3 capability set). -/
def constantEq [DecidableEq T] (xs ys : List T) : Bool :=
  (xs.length == ys.length) &&
    (xs.zip ys).foldl (fun acc p => acc && decide (p.1 = p.2)) true

/-- Modelled from the spec: the redaction marker rendered by Debug formatting
(§4.2) — it depends only on the length, never on element content. -/
def redact (data : List T) : String :=
  toString data.length ++ " elements redacted"

/-- Modelled from the spec: `Box`'s Debug formatting renders only the
redaction marker (§4.2 Display/Debug formatting). -/
def BoxS.fmt (b : BoxS T) : String := redact b.data

/-- Modelled from the spec: `Box`'s equality delegates to the constant-time
comparison over freshly acquired shared views of both sides (§4.2 Equality):
unlock both regions, compare the views, lock both. The post-comparison states
are returned alongside the result. -/
def BoxS.ceq [DecidableEq T] (a b : BoxS T) :
    Option (Bool × BoxS T × BoxS T) :=
  (a.unlock).bind fun ua =>
    (b.unlock).bind fun ub =>
      (ua.lock).bind fun la =>
        (ub.lock).map fun lb =>
          (constantEq ua.data ub.data, la, lb)

/-- `SecretVec<T>` (src/secret_vec.rs lines 105–108): owns one protected
region. -/
structure SecretVec (T : Type) where
  boxed : BoxS T
deriving DecidableEq, Repr

/-- `Ref<'a, T>` (src lines 110–113), as the view it dereferences to
(src lines 192–198: `deref` is `boxed.as_ref()`). -/
structure RefS (T : Type) where
  view : List T
deriving DecidableEq, Repr

/-- `RefMut<'a, T>` (src lines 115–118), as the view it dereferences to
(src lines 236–248). -/
structure RefMutS (T : Type) where
  view : List T
deriving DecidableEq, Repr

/-- `SecretVec::new` (src lines 121–123): delegates to `Box::new`. -/
def SecretVec.new [Inhabited T] (len : Nat) (f : List T → List T) :
    Option (SecretVec T) :=
  (BoxS.new len f).map SecretVec.mk

/-- `SecretVec::len` (src lines 125–127). -/
def SecretVec.len (v : SecretVec T) : Nat := v.boxed.len

/-- `SecretVec::is_empty` (src lines 129–131). -/
def SecretVec.is_empty (v : SecretVec T) : Bool := v.boxed.is_empty

/-- `SecretVec::borrow` (src lines 137–139) composed with `Ref::new`
(src lines 174–178): the guard's creation calls `boxed.unlock()`; the guard
dereferences to the region data. Returns the guard and the container state
after the unlock transition. -/
def SecretVec.borrow (v : SecretVec T) : Option (RefS T × SecretVec T) :=
  (v.boxed.unlock).map (fun b => (⟨b.data⟩, ⟨b⟩))

/-- `SecretVec::borrow_mut` (src lines 141–143) composed with `RefMut::new`
(src lines 224–228): the guard's creation calls `boxed.unlock_mut()`. -/
def SecretVec.borrow_mut (v : SecretVec T) :
    Option (RefMutS T × SecretVec T) :=
  (v.boxed.unlock_mut).map (fun b => (⟨b.data⟩, ⟨b⟩))

/-- `Drop for Ref` (src lines 186–190) and `Drop for RefMut`
(src lines 230–234): both destructors call `boxed.lock()`. -/
def SecretVec.dropGuard (v : SecretVec T) : Option (SecretVec T) :=
  (v.boxed.lock).map SecretVec.mk

/-- `SecretVec::random` (src lines 146–150): fills from the process-wide
random source, modelled as an explicit stream `rng` of random elements
(spec §6 random source dependency). -/
def SecretVec.random [Inhabited T] (rng : Nat → T) (len : Nat) :
    Option (SecretVec T) :=
  SecretVec.new len (fun s => (List.range s.length).map rng)

/-- `SecretVec::zero` (src lines 152–156): fills with zero elements. -/
def SecretVec.zero (T : Type) [Inhabited T] [Zero T] (len : Nat) :
    Option (SecretVec T) :=
  SecretVec.new len (fun s => s.map (fun _ => (0 : T)))

/-- `From<&mut [T]> for SecretVec` (src lines 158–162): allocates a region
sized to the buffer, copies the buffer's contents in, then zeroes the source
buffer (spec §4.2 FromExistingData). Returns the container together with the
source buffer's contents after construction. -/
def SecretVec.fromData [Inhabited T] [Zero T] (data : List T) :
    Option (SecretVec T) × List T :=
  (SecretVec.new data.length (fun _ => data),
   List.replicate data.length (0 : T))

/-- `Debug for SecretVec` (src lines 164–166): delegates to the region's
redacting formatter. -/
def SecretVec.fmtDebug (v : SecretVec T) : String := v.boxed.fmt

/-- `Debug for Ref` (src lines 200–202): delegates to the region's redacting
formatter; the guard's view is the region's data. -/
def RefS.fmtDebug (r : RefS T) : String := redact r.view

/-- `Debug for RefMut` (src lines 250–252). -/
def RefMutS.fmtDebug (m : RefMutS T) : String := redact m.view

/-- `PartialEq for SecretVec` (src lines 168–172): delegates to the region's
equality (`self.boxed.eq(&rhs.boxed)`). -/
def SecretVec.ceq [DecidableEq T] (a b : SecretVec T) :
    Option (Bool × SecretVec T × SecretVec T) :=
  (BoxS.ceq a.boxed b.boxed).map (fun r => (r.1, ⟨r.2.1⟩, ⟨r.2.2⟩))

/-- `Clone for Ref` (src lines 180–184): the clone re-unlocks the owning
region (`self.boxed.unlock()`) rather than copying bytes. `r` is the guard
being cloned; `v` is the state of its owning container. -/
def RefS.cloneGuard (r : RefS T) (v : SecretVec T) :
    Option (RefS T × SecretVec T) :=
  (v.boxed.unlock).map (fun b => (⟨b.data⟩, ⟨b⟩))

/-- `PartialEq for Ref` (src lines 204–212): constant-time comparison
directly on the two dereferenced views. -/
def RefS.eq [DecidableEq T] (a b : RefS T) : Bool :=
  constantEq a.view b.view

/-- `PartialEq<RefMut> for Ref` (src lines 214–222). -/
def RefS.eqMut [DecidableEq T] (a : RefS T) (b : RefMutS T) : Bool :=
  constantEq a.view b.view

/-- `PartialEq<Ref> for RefMut` (src lines 264–272). -/
def RefMutS.eqRef [DecidableEq T] (a : RefMutS T) (b : RefS T) : Bool :=
  constantEq a.view b.view

/-- `PartialEq for RefMut` (src lines 254–262). -/
def RefMutS.eq [DecidableEq T] (a b : RefMutS T) : Bool :=
  constantEq a.view b.view

/-- `DerefMut for RefMut` (src lines 244–248) combined with a whole-slice
write (`clone_from_slice`): the write replaces the region's contents through
the exclusive view. Slice writes cannot change the length; theorems carry
that contract as a hypothesis. -/
def RefMutS.write (v : SecretVec T) (xs : List T) :
    RefMutS T × SecretVec T :=
  (⟨xs⟩, ⟨{ v.boxed with data := xs }⟩)

/-- Spec §3 Protected Region invariant 2: the protection state reflects the
outstanding borrows — no-access iff zero shared and no exclusive borrow;
read-only iff shared count ≥ 1 and no exclusive borrow; read-write iff an
exclusive borrow is held and the shared count is 0. -/
def protInv (b : BoxS T) : Prop :=
  (b.prot = Prot.noAccess ↔ (b.refs = 0 ∧ b.excl = false)) ∧
  (b.prot = Prot.readOnly ↔ (1 ≤ b.refs ∧ b.excl = false)) ∧
  (b.prot = Prot.readWrite ↔ (b.excl = true ∧ b.refs = 0))

instance (b : BoxS T) : Decidable (protInv b) := by
  unfold protInv; infer_instance

/-- Guard lifecycle events on a region: a `Ref` creation (unlock), a `RefMut`
creation (unlock_mut), or a guard destruction (lock). -/
inductive GuardEvent where
  | acquireShared
  | acquireExcl
  | release
deriving DecidableEq, Repr

/-- The region transition performed by one guard event. -/
def GuardEvent.step (b : BoxS T) : GuardEvent → Option (BoxS T)
  | .acquireShared => b.unlock
  | .acquireExcl => b.unlock_mut
  | .release => b.lock

/-- Run a sequence of guard events; any aborting transition aborts the run. -/
def runEvents (b : BoxS T) : List GuardEvent → Option (BoxS T)
  | [] => some b
  | e :: t => (GuardEvent.step b e).bind (fun b' => runEvents b' t)

/-- Number of guard creations in a trace. -/
def acquires (t : List GuardEvent) : Nat :=
  t.countP (fun e => !(e == GuardEvent.release))

/-- Number of guard destructions in a trace. -/
def releases (t : List GuardEvent) : Nat :=
  t.countP (fun e => e == GuardEvent.release)

/-- Total number of outstanding borrows of a region. -/
def totalBorrows (b : BoxS T) : Nat :=
  b.refs + (if b.excl then 1 else 0)

theorem foldl_and_eq_all {A : Type} (p : A → Bool) :
    ∀ (l : List A) (b : Bool),
      l.foldl (fun acc x => acc && p x) b = (b && l.all p)
  | [], b => by simp
  | x :: t, b => by
    simp only [List.foldl_cons, List.all_cons, foldl_and_eq_all p t]
    rw [Bool.and_assoc]

theorem constantEq_iff [DecidableEq T] (xs ys : List T) :
    constantEq xs ys = true ↔ xs = ys := by
  unfold constantEq
  rw [foldl_and_eq_all]
  induction xs generalizing ys with
  | nil => cases ys <;> simp
  | cons x xt ih =>
    cases ys with
    | nil => simp
    | cons y yt =>
      simp only [List.zip_cons_cons, List.all_cons, List.length_cons,
        List.cons.injEq, Bool.true_and, Bool.and_eq_true, beq_iff_eq,
        decide_eq_true_eq] at *
      constructor
      · rintro ⟨hl, hx, ha⟩
        exact ⟨hx, (ih yt).mp ⟨by omega, ha⟩⟩
      · rintro ⟨hx, ht⟩
        have := (ih yt).mpr ht
        exact ⟨by omega, hx, this.2⟩

theorem constantEq_self [DecidableEq T] (xs : List T) :
    constantEq xs xs = true := (constantEq_iff xs xs).mpr rfl

theorem unlock_elim {b u : BoxS T} (h : b.unlock = some u) :
    b.excl = false ∧
      u = { data := b.data, refs := b.refs + 1, excl := false,
            prot := if b.refs = 0 then Prot.readOnly else b.prot } := by
  unfold BoxS.unlock at h
  by_cases he : b.excl <;> simp [he] at h
  exact ⟨by simpa using he, h.symm⟩

theorem unlock_mut_elim {b u : BoxS T} (h : b.unlock_mut = some u) :
    b.refs = 0 ∧ b.excl = false ∧
      u = { data := b.data, refs := 0, excl := true,
            prot := Prot.readWrite } := by
  unfold BoxS.unlock_mut at h
  by_cases hc : b.refs = 0 ∧ b.excl = false <;> simp [hc] at h
  exact ⟨hc.1, hc.2, h.symm⟩

theorem protInv_unlock {b u : BoxS T} (hinv : protInv b)
    (h : b.unlock = some u) :
    protInv u ∧ u.data = b.data ∧ totalBorrows u = totalBorrows b + 1 := by
  obtain ⟨he, hu⟩ := unlock_elim h
  obtain ⟨h1, h2, h3⟩ := hinv
  subst hu
  refine ⟨?_, rfl, by simp [totalBorrows, he]⟩
  by_cases hr : b.refs = 0 <;>
    cases hp : b.prot <;>
    simp_all [protInv] <;> omega

theorem protInv_unlock_mut {b u : BoxS T} (hinv : protInv b)
    (h : b.unlock_mut = some u) :
    protInv u ∧ u.data = b.data ∧ totalBorrows u = totalBorrows b + 1 := by
  obtain ⟨hr, he, hu⟩ := unlock_mut_elim h
  subst hu
  exact ⟨by simp [protInv, hr], rfl, by simp [totalBorrows, hr, he]⟩

theorem lock_elim {b u : BoxS T} (h : b.lock = some u) :
    (b.excl = true ∧
      u = { data := b.data, refs := b.refs, excl := false,
            prot := Prot.noAccess }) ∨
    (b.excl = false ∧ ∃ r, b.refs = r + 1 ∧
      u = { data := b.data, refs := r, excl := false,
            prot := if r = 0 then Prot.noAccess else b.prot }) := by
  unfold BoxS.lock at h
  by_cases he : b.excl
  · simp [he] at h
    exact Or.inl ⟨he, h.symm⟩
  · simp [he] at h
    cases hr : b.refs with
    | zero => rw [hr] at h; simp at h
    | succ r =>
      rw [hr] at h
      simp at h
      exact Or.inr ⟨by simpa using he, r, rfl, h.symm⟩

theorem protInv_lock {b u : BoxS T} (hinv : protInv b)
    (h : b.lock = some u) :
    protInv u ∧ u.data = b.data ∧ totalBorrows u + 1 = totalBorrows b := by
  obtain ⟨h1, h2, h3⟩ := hinv
  rcases lock_elim h with ⟨he, hu⟩ | ⟨he, r, hr, hu⟩ <;> subst hu
  · have hr0 : b.refs = 0 := by
      cases hp : b.prot <;> simp_all
    exact ⟨by simp [protInv, hr0], rfl, by simp [totalBorrows, he, hr0]⟩
  · have hp : b.prot = Prot.readOnly := by
      cases hp : b.prot <;> simp_all <;> omega
    refine ⟨?_, rfl, by simp [totalBorrows, he, hr]⟩
    by_cases hz : r = 0 <;> simp_all [protInv] <;> omega

theorem lock_unlock {b u : BoxS T} (hinv : protInv b)
    (h : b.unlock = some u) : u.lock = some b := by
  obtain ⟨he, hu⟩ := unlock_elim h
  obtain ⟨h1, h2, h3⟩ := hinv
  obtain ⟨d, rs, ex, pr⟩ := b
  simp only at he h1 h2 h3 hu ⊢
  subst he hu
  unfold BoxS.lock
  by_cases hr : rs = 0
  · subst hr
    have hp : pr = Prot.noAccess := h1.mpr ⟨rfl, rfl⟩
    subst hp
    simp
  · simp [hr]

theorem runEvents_spec :
    ∀ (t : List GuardEvent) (b b' : BoxS T),
      protInv b → runEvents b t = some b' →
      protInv b' ∧ b'.data = b.data ∧
        totalBorrows b' + releases t = totalBorrows b + acquires t
  | [], b, b', hinv, hrun => by
    simp [runEvents] at hrun
    subst hrun
    simp [acquires, releases, hinv]
  | e :: t, b, b', hinv, hrun => by
    simp only [runEvents, Option.bind_eq_some] at hrun
    obtain ⟨u, hstep, hrest⟩ := hrun
    have hcount : protInv u ∧ u.data = b.data ∧
        ((e = GuardEvent.release ∧ totalBorrows u + 1 = totalBorrows b) ∨
         (e ≠ GuardEvent.release ∧ totalBorrows u = totalBorrows b + 1)) := by
      cases e with
      | acquireShared =>
        obtain ⟨hi, hd, ht⟩ := protInv_unlock hinv hstep
        exact ⟨hi, hd, Or.inr ⟨by simp, ht⟩⟩
      | acquireExcl =>
        obtain ⟨hi, hd, ht⟩ := protInv_unlock_mut hinv hstep
        exact ⟨hi, hd, Or.inr ⟨by simp, ht⟩⟩
      | release =>
        obtain ⟨hi, hd, ht⟩ := protInv_lock hinv hstep
        exact ⟨hi, hd, Or.inl ⟨rfl, ht⟩⟩
    obtain ⟨hi, hd, hcase⟩ := hcount
    obtain ⟨hi', hd', ht'⟩ := runEvents_spec t u b' hi hrest
    refine ⟨hi', hd'.trans hd, ?_⟩
    rcases hcase with ⟨hrel, harith⟩ | ⟨hrel, harith⟩
    · subst hrel
      simp only [acquires, releases, List.countP_cons] at *
      simp at *
      omega
    · have hbe : (e == GuardEvent.release) = false := by
        cases e <;> simp_all
      simp only [acquires, releases, List.countP_cons, hbe] at *
      simp at *
      omega

theorem constantEq_eq_decide [DecidableEq T] (xs ys : List T) :
    constantEq xs ys = decide (xs = ys) := by
  by_cases h : xs = ys
  · subst h
    simp [constantEq_self]
  · have hne : constantEq xs ys ≠ true := fun hc =>
      h ((constantEq_iff xs ys).mp hc)
    simp [h, Bool.eq_false_iff.mpr hne]

theorem new_eq [Inhabited T] (len : Nat) (f : List T → List T) :
    BoxS.new len f =
      some ⟨f (List.replicate len default), 0, false, Prot.noAccess⟩ := by
  unfold BoxS.new BoxS.alloc BoxS.unlock_mut BoxS.lock
  simp

theorem unlock_of_not_excl {b : BoxS T} (he : b.excl = false) :
    b.unlock = some { data := b.data, refs := b.refs + 1, excl := false,
                      prot := if b.refs = 0 then Prot.readOnly
                              else b.prot } := by
  unfold BoxS.unlock
  rw [he]
  simp [← he]

theorem ceq_spec [DecidableEq T] (a b : SecretVec T)
    (ha : protInv a.boxed) (hb : protInv b.boxed)
    (hea : a.boxed.excl = false) (heb : b.boxed.excl = false) :
    SecretVec.ceq a b =
      some (decide (a.boxed.data = b.boxed.data), a, b) := by
  have hua := unlock_of_not_excl hea
  have hub := unlock_of_not_excl heb
  have hla := lock_unlock ha hua
  have hlb := lock_unlock hb hub
  unfold SecretVec.ceq BoxS.ceq
  simp [hua, hub, hla, hlb, constantEq_eq_decide]

/-- C1: the protection state of every region reflects its outstanding borrows
(`protInv` is exactly the no-access / read-only / read-write correspondence
with the shared count and exclusive flag) and is preserved by every guard
lifecycle event; creating a `Ref` calls `unlock`, creating a `RefMut` calls
`unlock_mut`, and dropping either guard calls `lock`; guard events never
change the protected data; and after a run of events in which every acquired
guard has been released, a region that started with no outstanding borrows is
back in the no-access state. -/
theorem C1_guards_drive_protection_state (t : List GuardEvent)
    (b b' : BoxS T) (v : SecretVec T)
    (hinv : protInv b) (hrun : runEvents b t = some b') :
    SecretVec.borrow v =
      (BoxS.unlock v.boxed).map (fun u => (⟨u.data⟩, ⟨u⟩)) ∧
    SecretVec.borrow_mut v =
      (BoxS.unlock_mut v.boxed).map (fun u => (⟨u.data⟩, ⟨u⟩)) ∧
    SecretVec.dropGuard v = (BoxS.lock v.boxed).map SecretVec.mk ∧
    protInv b' ∧
    b'.data = b.data ∧
    totalBorrows b' + releases t = totalBorrows b + acquires t ∧
    (totalBorrows b = 0 → acquires t = releases t →
      b'.refs = 0 ∧ b'.excl = false ∧ b'.prot = Prot.noAccess) := by
  obtain ⟨hi, hd, hc⟩ := runEvents_spec t b b' hinv hrun
  refine ⟨rfl, rfl, rfl, hi, hd, hc, ?_⟩
  intro h0 hbal
  have htb : totalBorrows b' = 0 := by omega
  have he : b'.excl = false := by
    cases hx : b'.excl
    · rfl
    · exfalso
      unfold totalBorrows at htb
      rw [hx] at htb
      simp at htb
  have hr : b'.refs = 0 := by
    unfold totalBorrows at htb
    rw [he] at htb
    simpa using htb
  exact ⟨hr, he, hi.1.mpr ⟨hr, he⟩⟩

/-- Witness for C1: a balanced run — two shared guards acquired and released,
then an exclusive guard acquired and released — on a one-element region
starting in the no-access state, applying the theorem there. -/
theorem C1_guards_drive_protection_state_witness :
    protInv (BoxS.mk [3] 0 false Prot.noAccess) ∧
    runEvents (BoxS.mk ([3] : List Nat) 0 false Prot.noAccess)
      [GuardEvent.acquireShared, GuardEvent.acquireShared,
       GuardEvent.release, GuardEvent.release,
       GuardEvent.acquireExcl, GuardEvent.release] =
      some (BoxS.mk [3] 0 false Prot.noAccess) ∧
    (SecretVec.borrow ⟨BoxS.mk ([3] : List Nat) 0 false Prot.noAccess⟩ =
      (BoxS.unlock (BoxS.mk [3] 0 false Prot.noAccess)).map
        (fun u => (⟨u.data⟩, ⟨u⟩)) ∧
     SecretVec.borrow_mut ⟨BoxS.mk ([3] : List Nat) 0 false Prot.noAccess⟩ =
      (BoxS.unlock_mut (BoxS.mk [3] 0 false Prot.noAccess)).map
        (fun u => (⟨u.data⟩, ⟨u⟩)) ∧
     SecretVec.dropGuard ⟨BoxS.mk ([3] : List Nat) 0 false Prot.noAccess⟩ =
      (BoxS.lock (BoxS.mk [3] 0 false Prot.noAccess)).map SecretVec.mk ∧
     protInv (BoxS.mk ([3] : List Nat) 0 false Prot.noAccess) ∧
     (BoxS.mk ([3] : List Nat) 0 false Prot.noAccess).data = [3] ∧
     totalBorrows (BoxS.mk ([3] : List Nat) 0 false Prot.noAccess) +
        releases [GuardEvent.acquireShared, GuardEvent.acquireShared,
          GuardEvent.release, GuardEvent.release,
          GuardEvent.acquireExcl, GuardEvent.release] =
      totalBorrows (BoxS.mk ([3] : List Nat) 0 false Prot.noAccess) +
        acquires [GuardEvent.acquireShared, GuardEvent.acquireShared,
          GuardEvent.release, GuardEvent.release,
          GuardEvent.acquireExcl, GuardEvent.release] ∧
     (totalBorrows (BoxS.mk ([3] : List Nat) 0 false Prot.noAccess) = 0 →
      acquires [GuardEvent.acquireShared, GuardEvent.acquireShared,
          GuardEvent.release, GuardEvent.release,
          GuardEvent.acquireExcl, GuardEvent.release] =
        releases [GuardEvent.acquireShared, GuardEvent.acquireShared,
          GuardEvent.release, GuardEvent.release,
          GuardEvent.acquireExcl, GuardEvent.release] →
      (BoxS.mk ([3] : List Nat) 0 false Prot.noAccess).refs = 0 ∧
      (BoxS.mk ([3] : List Nat) 0 false Prot.noAccess).excl = false ∧
      (BoxS.mk ([3] : List Nat) 0 false Prot.noAccess).prot =
        Prot.noAccess)) :=
  ⟨by decide, by decide,
   C1_guards_drive_protection_state
     [GuardEvent.acquireShared, GuardEvent.acquireShared,
      GuardEvent.release, GuardEvent.release,
      GuardEvent.acquireExcl, GuardEvent.release]
     (BoxS.mk ([3] : List Nat) 0 false Prot.noAccess)
     (BoxS.mk ([3] : List Nat) 0 false Prot.noAccess)
     ⟨BoxS.mk ([3] : List Nat) 0 false Prot.noAccess⟩
     (by decide) (by decide)⟩

/-- C2: container equality over a ConstantComparable element type delegates to
the constant-time comparison over freshly acquired shared views of both
sides; it succeeds and restores both containers' states whatever shared
borrow counts are outstanding, and the result is `true` exactly when the two
element sequences are equal. -/
theorem C2_eq_constant_time_over_fresh_views [DecidableEq T]
    (a b : SecretVec T) (ha : protInv a.boxed) (hb : protInv b.boxed)
    (hea : a.boxed.excl = false) (heb : b.boxed.excl = false) :
    SecretVec.ceq a b =
      some (decide (a.boxed.data = b.boxed.data), a, b) ∧
    ((∃ a' b', SecretVec.ceq a b = some (true, a', b')) ↔
      a.boxed.data = b.boxed.data) := by
  have h := ceq_spec a b ha hb hea heb
  refine ⟨h, ?_, fun hd => ⟨a, b, by rw [h]; simp [hd]⟩⟩
  rintro ⟨a', b', he⟩
  rw [h] at he
  have hfst := congrArg (fun p => p.map Prod.fst) he
  simp at hfst
  exact hfst

/-- Witness for C2: two two-element containers with equal contents but
different outstanding shared-borrow counts, applying the theorem there. -/
theorem C2_eq_constant_time_over_fresh_views_witness :
    protInv (BoxS.mk ([1, 2] : List Nat) 0 false Prot.noAccess) ∧
    protInv (BoxS.mk ([1, 2] : List Nat) 2 false Prot.readOnly) ∧
    (BoxS.mk ([1, 2] : List Nat) 0 false Prot.noAccess).excl = false ∧
    (BoxS.mk ([1, 2] : List Nat) 2 false Prot.readOnly).excl = false ∧
    (SecretVec.ceq ⟨BoxS.mk ([1, 2] : List Nat) 0 false Prot.noAccess⟩
        ⟨BoxS.mk ([1, 2] : List Nat) 2 false Prot.readOnly⟩ =
      some (decide
          ((BoxS.mk ([1, 2] : List Nat) 0 false Prot.noAccess).data =
           (BoxS.mk ([1, 2] : List Nat) 2 false Prot.readOnly).data),
        ⟨BoxS.mk ([1, 2] : List Nat) 0 false Prot.noAccess⟩,
        ⟨BoxS.mk ([1, 2] : List Nat) 2 false Prot.readOnly⟩) ∧
     ((∃ a' b',
        SecretVec.ceq ⟨BoxS.mk ([1, 2] : List Nat) 0 false Prot.noAccess⟩
          ⟨BoxS.mk ([1, 2] : List Nat) 2 false Prot.readOnly⟩ =
          some (true, a', b')) ↔
      (BoxS.mk ([1, 2] : List Nat) 0 false Prot.noAccess).data =
        (BoxS.mk ([1, 2] : List Nat) 2 false Prot.readOnly).data)) :=
  ⟨by decide, by decide, by decide, by decide,
   C2_eq_constant_time_over_fresh_views _ _ (by decide) (by decide)
     (by decide) (by decide)⟩

/-- C3: Display/Debug formatting of a container, a shared guard or an
exclusive guard never includes element content — the output is the redaction
marker, identical for any two values of the same type and length, and
unchanged by the protection state, borrow count or exclusive flag. -/
theorem C3_debug_redacts_content (v w : SecretVec T) (r s : RefS T)
    (m p : RefMutS T) (q : Prot) (k : Nat) (e : Bool)
    (hvw : v.len = w.len) (hrs : r.view.length = s.view.length)
    (hmp : m.view.length = p.view.length) :
    SecretVec.fmtDebug v = SecretVec.fmtDebug w ∧
    RefS.fmtDebug r = RefS.fmtDebug s ∧
    RefMutS.fmtDebug m = RefMutS.fmtDebug p ∧
    SecretVec.fmtDebug ⟨BoxS.mk v.boxed.data k e q⟩ =
      SecretVec.fmtDebug v := by
  unfold SecretVec.len BoxS.len at hvw
  refine ⟨?_, ?_, ?_, rfl⟩ <;>
    simp only [SecretVec.fmtDebug, BoxS.fmt, RefS.fmtDebug,
      RefMutS.fmtDebug, redact, hvw, hrs, hmp]

/-- Witness for C3: two containers and guard pairs of length 2 with different
contents and different protection states format identically. -/
theorem C3_debug_redacts_content_witness :
    (SecretVec.len ⟨BoxS.mk ([1, 2] : List Nat) 0 false Prot.noAccess⟩ =
      SecretVec.len ⟨BoxS.mk ([9, 9] : List Nat) 1 false Prot.readOnly⟩) ∧
    (([5, 6] : List Nat).length = ([7, 8] : List Nat).length) ∧
    (([1, 1] : List Nat).length = ([2, 2] : List Nat).length) ∧
    (SecretVec.fmtDebug ⟨BoxS.mk ([1, 2] : List Nat) 0 false Prot.noAccess⟩ =
      SecretVec.fmtDebug ⟨BoxS.mk ([9, 9] : List Nat) 1 false Prot.readOnly⟩ ∧
     RefS.fmtDebug ⟨([5, 6] : List Nat)⟩ =
      RefS.fmtDebug ⟨([7, 8] : List Nat)⟩ ∧
     RefMutS.fmtDebug ⟨([1, 1] : List Nat)⟩ =
      RefMutS.fmtDebug ⟨([2, 2] : List Nat)⟩ ∧
     SecretVec.fmtDebug
        ⟨BoxS.mk
          (SecretVec.mk (BoxS.mk ([1, 2] : List Nat) 0 false
            Prot.noAccess)).boxed.data 1 true Prot.readWrite⟩ =
      SecretVec.fmtDebug
        ⟨BoxS.mk ([1, 2] : List Nat) 0 false Prot.noAccess⟩) :=
  ⟨by decide, by decide, by decide,
   C3_debug_redacts_content
     ⟨BoxS.mk ([1, 2] : List Nat) 0 false Prot.noAccess⟩
     ⟨BoxS.mk ([9, 9] : List Nat) 1 false Prot.readOnly⟩
     ⟨([5, 6] : List Nat)⟩ ⟨([7, 8] : List Nat)⟩
     ⟨([1, 1] : List Nat)⟩ ⟨([2, 2] : List Nat)⟩
     Prot.readWrite 1 true (by decide) (by decide) (by decide)⟩

/-- C4: for all n > 0, a container constructed with `SecretVec::zero n`
yields, via `borrow`, a shared view whose dereferenced sequence is n zero
elements. -/
theorem C4_zero_yields_zero_view {T : Type} [Inhabited T] [Zero T]
    (n : Nat) (hn : 0 < n) :
    ∃ (v : SecretVec T) (r : RefS T) (v' : SecretVec T),
      SecretVec.zero T n = some v ∧ SecretVec.borrow v = some (r, v') ∧
      r.view = List.replicate n (0 : T) ∧ v.len = n := by
  have hz : SecretVec.zero T n =
      some ⟨⟨List.replicate n (0 : T), 0, false, Prot.noAccess⟩⟩ := by
    unfold SecretVec.zero SecretVec.new
    rw [new_eq]
    simp
  refine ⟨⟨⟨List.replicate n (0 : T), 0, false, Prot.noAccess⟩⟩,
    ⟨List.replicate n (0 : T)⟩,
    ⟨⟨List.replicate n (0 : T), 1, false, Prot.readOnly⟩⟩, hz, ?_, rfl, ?_⟩
  · unfold SecretVec.borrow BoxS.unlock
    simp
  · simp [SecretVec.len, BoxS.len]

/-- Witness for C4 at n = 3. -/
theorem C4_zero_yields_zero_view_witness :
    0 < 3 ∧
    (∃ (v : SecretVec Nat) (r : RefS Nat) (v' : SecretVec Nat),
      SecretVec.zero Nat 3 = some v ∧ SecretVec.borrow v = some (r, v') ∧
      r.view = List.replicate 3 (0 : Nat) ∧ v.len = 3) :=
  ⟨by decide, C4_zero_yields_zero_view 3 (by decide)⟩

/-- C5: `SecretVec::new len f` allocates a region of len elements, acquires
an exclusive view, runs the initializer against it, and releases the view
(first conjunct, definitional); the initializer's writes are visible through
a subsequently acquired shared view (second conjunct); concretely, an
initializer writing [1,2,3,4] into a container of length 4 yields a borrow
dereferencing to [1,2,3,4] (third conjunct). -/
theorem C5_new_runs_initializer_exclusively {T : Type} [Inhabited T]
    (len : Nat) (f : List T → List T) :
    (BoxS.new len f =
      ((BoxS.alloc T len).unlock_mut).bind
        (fun bu => BoxS.lock { bu with data := f bu.data })) ∧
    (∃ v r v', SecretVec.new len f = some v ∧
      SecretVec.borrow v = some (r, v') ∧
      r.view = f (List.replicate len default)) ∧
    (∃ v r v',
      SecretVec.new 4 (fun _ => ([1, 2, 3, 4] : List Nat)) = some v ∧
      SecretVec.borrow v = some (r, v') ∧ r.view = [1, 2, 3, 4]) := by
  refine ⟨rfl, ?_, ?_⟩
  · have hv : SecretVec.new len f =
        some ⟨⟨f (List.replicate len default), 0, false, Prot.noAccess⟩⟩ := by
      unfold SecretVec.new
      rw [new_eq]
      rfl
    refine ⟨⟨⟨f (List.replicate len default), 0, false, Prot.noAccess⟩⟩,
      ⟨f (List.replicate len default)⟩,
      ⟨⟨f (List.replicate len default), 1, false, Prot.readOnly⟩⟩,
      hv, ?_, rfl⟩
    unfold SecretVec.borrow BoxS.unlock
    simp
  · exact ⟨⟨⟨[1, 2, 3, 4], 0, false, Prot.noAccess⟩⟩, ⟨[1, 2, 3, 4]⟩,
      ⟨⟨[1, 2, 3, 4], 1, false, Prot.readOnly⟩⟩, by decide, by decide,
      by decide⟩

/-- Witness for C5 at length 2 with an initializer writing [4, 9]. -/
theorem C5_new_runs_initializer_exclusively_witness :
    (BoxS.new 2 (fun _ => ([4, 9] : List Nat)) =
      ((BoxS.alloc Nat 2).unlock_mut).bind
        (fun bu => BoxS.lock { bu with data := [4, 9] })) ∧
    (∃ v r v', SecretVec.new 2 (fun _ => ([4, 9] : List Nat)) = some v ∧
      SecretVec.borrow v = some (r, v') ∧
      r.view = ([4, 9] : List Nat)) ∧
    (∃ v r v',
      SecretVec.new 4 (fun _ => ([1, 2, 3, 4] : List Nat)) = some v ∧
      SecretVec.borrow v = some (r, v') ∧ r.view = [1, 2, 3, 4]) :=
  C5_new_runs_initializer_exclusively 2 (fun _ => ([4, 9] : List Nat))

/-- C6: `SecretVec::from` over a mutable source buffer copies the buffer's
contents into the new container and overwrites the source with zeroes; for
source [1,2,3,4] the source reads [0,0,0,0] afterwards and the container's
shared view reads [1,2,3,4]. -/
theorem C6_from_zeroes_source_buffer {T : Type} [Inhabited T] [Zero T]
    (data : List T) :
    (SecretVec.fromData data).2 = List.replicate data.length (0 : T) ∧
    (∃ v r v', (SecretVec.fromData data).1 = some v ∧
      SecretVec.borrow v = some (r, v') ∧ r.view = data ∧
      v.len = data.length) ∧
    ((SecretVec.fromData ([1, 2, 3, 4] : List Nat)).2 = [0, 0, 0, 0]) ∧
    (∃ v r v', (SecretVec.fromData ([1, 2, 3, 4] : List Nat)).1 = some v ∧
      SecretVec.borrow v = some (r, v') ∧ r.view = [1, 2, 3, 4]) := by
  refine ⟨rfl, ?_, by decide, ?_⟩
  · have hv : (SecretVec.fromData data).1 =
        some ⟨⟨data, 0, false, Prot.noAccess⟩⟩ := by
      unfold SecretVec.fromData SecretVec.new
      rw [new_eq]
      rfl
    refine ⟨⟨⟨data, 0, false, Prot.noAccess⟩⟩, ⟨data⟩,
      ⟨⟨data, 1, false, Prot.readOnly⟩⟩, hv, ?_, rfl, ?_⟩
    · unfold SecretVec.borrow BoxS.unlock
      simp
    · simp [SecretVec.len, BoxS.len]
  · exact ⟨⟨⟨[1, 2, 3, 4], 0, false, Prot.noAccess⟩⟩, ⟨[1, 2, 3, 4]⟩,
      ⟨⟨[1, 2, 3, 4], 1, false, Prot.readOnly⟩⟩, by decide, by decide,
      by decide⟩

/-- Witness for C6 with source buffer [5, 6]. -/
theorem C6_from_zeroes_source_buffer_witness :
    ((SecretVec.fromData ([5, 6] : List Nat)).2 =
      List.replicate ([5, 6] : List Nat).length (0 : Nat)) ∧
    (∃ v r v', (SecretVec.fromData ([5, 6] : List Nat)).1 = some v ∧
      SecretVec.borrow v = some (r, v') ∧ r.view = [5, 6] ∧
      v.len = ([5, 6] : List Nat).length) ∧
    ((SecretVec.fromData ([1, 2, 3, 4] : List Nat)).2 = [0, 0, 0, 0]) ∧
    (∃ v r v', (SecretVec.fromData ([1, 2, 3, 4] : List Nat)).1 = some v ∧
      SecretVec.borrow v = some (r, v') ∧ r.view = [1, 2, 3, 4]) :=
  C6_from_zeroes_source_buffer ([5, 6] : List Nat)

/-- C7: writes made through an exclusive guard persist across a
release/reacquire cycle — generally, after acquiring an exclusive guard and
writing a slice of matching length through it, dropping the guard and
borrowing again yields a shared view equal to the written slice; concretely,
after `zero 2`, writing [7, 1] through `borrow_mut` and dropping, a
subsequent `borrow` dereferences to [7, 1]. -/
theorem C7_writes_persist_across_reacquire (T : Type) :
    (∀ (v vm : SecretVec T) (m : RefMutS T) (xs : List T),
      SecretVec.borrow_mut v = some (m, vm) → xs.length = v.len →
      ∃ vd r vr,
        SecretVec.dropGuard (RefMutS.write vm xs).2 = some vd ∧
        SecretVec.borrow vd = some (r, vr) ∧ r.view = xs ∧
        vd.boxed.data = xs) ∧
    (∃ v m vm vd r vr,
      SecretVec.zero Nat 2 = some v ∧
      SecretVec.borrow_mut v = some (m, vm) ∧
      (RefMutS.write vm [7, 1]).2.boxed.data = [7, 1] ∧
      SecretVec.dropGuard (RefMutS.write vm [7, 1]).2 = some vd ∧
      SecretVec.borrow vd = some (r, vr) ∧ r.view = [7, 1]) := by
  constructor
  · intro v vm m xs hbm hlen
    rw [SecretVec.borrow_mut, Option.map_eq_some'] at hbm
    obtain ⟨u, hu, hmk⟩ := hbm
    obtain ⟨hr0, he0, hu'⟩ := unlock_mut_elim hu
    cases hmk
    subst hu'
    refine ⟨⟨⟨xs, 0, false, Prot.noAccess⟩⟩, ⟨xs⟩,
      ⟨⟨xs, 1, false, Prot.readOnly⟩⟩, ?_, ?_, rfl, rfl⟩
    · unfold SecretVec.dropGuard RefMutS.write BoxS.lock
      simp
    · unfold SecretVec.borrow BoxS.unlock
      simp
  · exact ⟨⟨⟨[0, 0], 0, false, Prot.noAccess⟩⟩, ⟨[0, 0]⟩,
      ⟨⟨[0, 0], 0, true, Prot.readWrite⟩⟩,
      ⟨⟨[7, 1], 0, false, Prot.noAccess⟩⟩, ⟨[7, 1]⟩,
      ⟨⟨[7, 1], 1, false, Prot.readOnly⟩⟩,
      by decide, by decide, by decide, by decide, by decide, by decide⟩

/-- Witness for C7: the theorem applied at element type Nat, and the general
conjunct applied to a concrete exclusive-guard write of [4, 5]. -/
theorem C7_writes_persist_across_reacquire_witness :
    (SecretVec.borrow_mut (⟨⟨[9, 9], 0, false, Prot.noAccess⟩⟩ :
        SecretVec Nat) =
      some (⟨[9, 9]⟩, ⟨⟨[9, 9], 0, true, Prot.readWrite⟩⟩)) ∧
    (([4, 5] : List Nat).length =
      SecretVec.len (⟨⟨[9, 9], 0, false, Prot.noAccess⟩⟩ :
        SecretVec Nat)) ∧
    (∃ vd r vr,
      SecretVec.dropGuard
        (RefMutS.write (⟨⟨[9, 9], 0, true, Prot.readWrite⟩⟩ :
          SecretVec Nat) [4, 5]).2 = some vd ∧
      SecretVec.borrow vd = some (r, vr) ∧ r.view = [4, 5] ∧
      vd.boxed.data = [4, 5]) :=
  ⟨by decide, by decide,
   (C7_writes_persist_across_reacquire Nat).1
     ⟨⟨[9, 9], 0, false, Prot.noAccess⟩⟩
     ⟨⟨[9, 9], 0, true, Prot.readWrite⟩⟩ ⟨[9, 9]⟩ [4, 5]
     (by decide) (by decide)⟩

/-- C8: cloning a shared guard re-unlocks the owning region — the shared
borrow count goes up by one and the protection state stays read-only — the
container's content is unmutated, and the clone compares equal to the
original guard. -/
theorem C8_clone_reunlocks_without_copy {T : Type} [DecidableEq T]
    (v : SecretVec T) (r : RefS T)
    (hview : r.view = v.boxed.data) (hinv : protInv v.boxed)
    (hheld : 1 ≤ v.boxed.refs) (hexcl : v.boxed.excl = false) :
    ∃ r' v', RefS.cloneGuard r v = some (r', v') ∧
      v'.boxed.refs = v.boxed.refs + 1 ∧
      v'.boxed.data = v.boxed.data ∧
      v'.boxed.prot = Prot.readOnly ∧
      RefS.eq r' r = true := by
  have hu := unlock_of_not_excl hexcl
  have hp : v.boxed.prot = Prot.readOnly := hinv.2.1.mpr ⟨hheld, hexcl⟩
  refine ⟨⟨v.boxed.data⟩,
    ⟨⟨v.boxed.data, v.boxed.refs + 1, false,
      if v.boxed.refs = 0 then Prot.readOnly else v.boxed.prot⟩⟩,
    ?_, rfl, rfl, ?_, ?_⟩
  · unfold RefS.cloneGuard
    rw [hu]
    rfl
  · by_cases hz : v.boxed.refs = 0 <;> simp [hz, hp]
  · unfold RefS.eq
    rw [hview]
    exact constantEq_self _

/-- Witness for C8: cloning a guard over a two-element container with one
outstanding shared borrow. -/
theorem C8_clone_reunlocks_without_copy_witness :
    ((⟨[2, 3]⟩ : RefS Nat).view =
      (⟨⟨[2, 3], 1, false, Prot.readOnly⟩⟩ : SecretVec Nat).boxed.data) ∧
    protInv ((⟨⟨[2, 3], 1, false, Prot.readOnly⟩⟩ :
      SecretVec Nat).boxed) ∧
    (1 ≤ (⟨⟨[2, 3], 1, false, Prot.readOnly⟩⟩ :
      SecretVec Nat).boxed.refs) ∧
    ((⟨⟨[2, 3], 1, false, Prot.readOnly⟩⟩ :
      SecretVec Nat).boxed.excl = false) ∧
    (∃ r' v',
      RefS.cloneGuard (⟨[2, 3]⟩ : RefS Nat)
        ⟨⟨[2, 3], 1, false, Prot.readOnly⟩⟩ = some (r', v') ∧
      v'.boxed.refs =
        (⟨⟨[2, 3], 1, false, Prot.readOnly⟩⟩ :
          SecretVec Nat).boxed.refs + 1 ∧
      v'.boxed.data =
        (⟨⟨[2, 3], 1, false, Prot.readOnly⟩⟩ :
          SecretVec Nat).boxed.data ∧
      v'.boxed.prot = Prot.readOnly ∧
      RefS.eq r' ⟨[2, 3]⟩ = true) :=
  ⟨by decide, by decide, by decide, by decide,
   C8_clone_reunlocks_without_copy ⟨⟨[2, 3], 1, false, Prot.readOnly⟩⟩
     ⟨[2, 3]⟩ (by decide) (by decide) (by decide) (by decide)⟩

/-- C9: cross-guard equality between a shared and an exclusive guard applies
the constant-time comparison directly to the two dereferenced views (first
conjunct, definitional), agrees in both directions (second conjunct), and its
result coincides with the container-level equality path over containers
holding the same element sequences (third conjunct). -/
theorem C9_cross_guard_eq_agrees {T : Type} [DecidableEq T]
    (r : RefS T) (m : RefMutS T) (a b : SecretVec T)
    (hr : r.view = a.boxed.data) (hm : m.view = b.boxed.data)
    (ha : protInv a.boxed) (hb : protInv b.boxed)
    (hea : a.boxed.excl = false) (heb : b.boxed.excl = false) :
    RefS.eqMut r m = constantEq r.view m.view ∧
    RefMutS.eqRef m r = RefS.eqMut r m ∧
    SecretVec.ceq a b = some (RefS.eqMut r m, a, b) := by
  refine ⟨rfl, ?_, ?_⟩
  · unfold RefMutS.eqRef RefS.eqMut
    rw [constantEq_eq_decide, constantEq_eq_decide]
    exact decide_eq_decide.mpr eq_comm
  · rw [ceq_spec a b ha hb hea heb]
    unfold RefS.eqMut
    rw [hr, hm, constantEq_eq_decide]

/-- Witness for C9: a shared guard viewing [1, 2] and an exclusive guard
viewing [1, 3], with containers holding the same sequences. -/
theorem C9_cross_guard_eq_agrees_witness :
    ((⟨[1, 2]⟩ : RefS Nat).view =
      (⟨⟨[1, 2], 1, false, Prot.readOnly⟩⟩ : SecretVec Nat).boxed.data) ∧
    ((⟨[1, 3]⟩ : RefMutS Nat).view =
      (⟨⟨[1, 3], 0, false, Prot.noAccess⟩⟩ : SecretVec Nat).boxed.data) ∧
    protInv ((⟨⟨[1, 2], 1, false, Prot.readOnly⟩⟩ :
      SecretVec Nat).boxed) ∧
    protInv ((⟨⟨[1, 3], 0, false, Prot.noAccess⟩⟩ :
      SecretVec Nat).boxed) ∧
    ((⟨⟨[1, 2], 1, false, Prot.readOnly⟩⟩ :
      SecretVec Nat).boxed.excl = false) ∧
    ((⟨⟨[1, 3], 0, false, Prot.noAccess⟩⟩ :
      SecretVec Nat).boxed.excl = false) ∧
    (RefS.eqMut (⟨[1, 2]⟩ : RefS Nat) ⟨[1, 3]⟩ =
      constantEq [1, 2] [1, 3] ∧
     RefMutS.eqRef (⟨[1, 3]⟩ : RefMutS Nat) ⟨[1, 2]⟩ =
      RefS.eqMut (⟨[1, 2]⟩ : RefS Nat) ⟨[1, 3]⟩ ∧
     SecretVec.ceq ⟨⟨[1, 2], 1, false, Prot.readOnly⟩⟩
        ⟨⟨[1, 3], 0, false, Prot.noAccess⟩⟩ =
      some (RefS.eqMut (⟨[1, 2]⟩ : RefS Nat) ⟨[1, 3]⟩,
        ⟨⟨[1, 2], 1, false, Prot.readOnly⟩⟩,
        ⟨⟨[1, 3], 0, false, Prot.noAccess⟩⟩)) :=
  ⟨by decide, by decide, by decide, by decide, by decide, by decide,
   C9_cross_guard_eq_agrees ⟨[1, 2]⟩ ⟨[1, 3]⟩
     ⟨⟨[1, 2], 1, false, Prot.readOnly⟩⟩
     ⟨⟨[1, 3], 0, false, Prot.noAccess⟩⟩
     (by decide) (by decide) (by decide) (by decide) (by decide)
     (by decide)⟩

/-- C10: zero-length construction is accepted — `new 0 f` (for a
length-preserving slice initializer), `zero 0` and `random 0` each succeed
and produce a container with length 0 and `is_empty` true — and for every
container, `is_empty` holds exactly when the length is 0. -/
theorem C10_zero_length_accepted {T : Type} [Inhabited T] [Zero T]
    (f : List T → List T) (hf : ∀ l, (f l).length = l.length)
    (rng : Nat → T) (w : SecretVec T) :
    (∃ v, SecretVec.new 0 f = some v ∧ SecretVec.len v = 0 ∧
      SecretVec.is_empty v = true) ∧
    (∃ v, SecretVec.zero T 0 = some v ∧ SecretVec.len v = 0 ∧
      SecretVec.is_empty v = true) ∧
    (∃ v, SecretVec.random rng 0 = some v ∧ SecretVec.len v = 0 ∧
      SecretVec.is_empty v = true) ∧
    (SecretVec.is_empty w = true ↔ SecretVec.len w = 0) := by
  have h0 : (f ([] : List T)).length = 0 := by simpa using hf []
  refine ⟨⟨⟨⟨f [], 0, false, Prot.noAccess⟩⟩, ?_, ?_, ?_⟩, ?_, ?_, ?_⟩
  · unfold SecretVec.new
    rw [new_eq]
    rfl
  · simpa [SecretVec.len, BoxS.len] using h0
  · simp [SecretVec.is_empty, BoxS.is_empty, BoxS.len, h0]
  · refine ⟨⟨⟨[], 0, false, Prot.noAccess⟩⟩, ?_, ?_, ?_⟩
    · unfold SecretVec.zero SecretVec.new
      rw [new_eq]
      rfl
    · simp [SecretVec.len, BoxS.len]
    · simp [SecretVec.is_empty, BoxS.is_empty, BoxS.len]
  · refine ⟨⟨⟨[], 0, false, Prot.noAccess⟩⟩, ?_, ?_, ?_⟩
    · unfold SecretVec.random SecretVec.new
      rw [new_eq]
      rfl
    · simp [SecretVec.len, BoxS.len]
    · simp [SecretVec.is_empty, BoxS.is_empty, BoxS.len]
  · simp [SecretVec.is_empty, BoxS.is_empty, SecretVec.len, BoxS.len]

/-- Witness for C10: the identity initializer (length-preserving), a constant
random stream, and a one-element container that is not empty. -/
theorem C10_zero_length_accepted_witness :
    (∀ l : List Nat, (id l).length = l.length) ∧
    ((∃ v, SecretVec.new 0 (id : List Nat → List Nat) = some v ∧
        SecretVec.len v = 0 ∧ SecretVec.is_empty v = true) ∧
     (∃ v, SecretVec.zero Nat 0 = some v ∧ SecretVec.len v = 0 ∧
        SecretVec.is_empty v = true) ∧
     (∃ v, SecretVec.random (fun _ => (0 : Nat)) 0 = some v ∧
        SecretVec.len v = 0 ∧ SecretVec.is_empty v = true) ∧
     (SecretVec.is_empty (⟨⟨[1], 0, false, Prot.noAccess⟩⟩ :
        SecretVec Nat) = true ↔
      SecretVec.len (⟨⟨[1], 0, false, Prot.noAccess⟩⟩ :
        SecretVec Nat) = 0)) :=
  ⟨fun l => rfl,
   C10_zero_length_accepted (id : List Nat → List Nat) (fun l => rfl)
     (fun _ => (0 : Nat)) ⟨⟨[1], 0, false, Prot.noAccess⟩⟩⟩

end Secrets
